import Mathlib

/-!
Verification of the dbt manifest loader and test-selection code
(`core/dbt/parser/manifest.py`, `core/dbt/task/test.py`) against its
natural-language specification.  Python functions are shallowly embedded as
executable Lean definitions; effectful collaborators (filesystem, per-kind
resource parsers, the `resolve_ref` / `resolve_source` lookups living in
`dbt.contracts.graph.manifest`) are passed in as explicit parameters.
-/

set_option autoImplicit false

namespace Dbt

/-! ## State check and `matching_parse_results` (`parser/manifest.py`) -/

/-- A content digest (`FileHash` in `dbt.contracts.files`); only compared for
equality here, so a plain string suffices. -/
abbrev Hash := String

/-- `ManifestStateCheck`: hashes of everything that can silently invalidate a
prior parse.  `project_hashes` is a Python dict `package name -> hash`,
embedded as an association list with the dict's unique-key lookup. -/
structure ManifestStateCheck where
  vars_hash : Hash
  profile_hash : Hash
  project_hashes : List (String × Hash)
deriving DecidableEq, Repr

/-- Dictionary lookup on `project_hashes`. -/
def lookupHash (l : List (String × Hash)) (k : String) : Option Hash :=
  (l.find? (fun kv => kv.1 == k)).map (fun kv => kv.2)

/-- The slice of `ManifestMetadata` read by `matching_parse_results`.
`dbt_version = none` models a pickle whose metadata lacks the attribute, so
that reading it raises `AttributeError` (the "malformed tag" branch). -/
structure ManifestMetadata where
  dbt_version : Option String
deriving DecidableEq, Repr

/-- The slice of a persisted (pickled) `Manifest` that
`matching_parse_results` inspects. -/
structure PersistedManifest where
  metadata : ManifestMetadata
  state_check : Option ManifestStateCheck
deriving DecidableEq, Repr

/-- `ManifestLoader.matching_parse_results`, embedded.  `version` is the
running tool's `__version__`; `self_state_check` is the loader's freshly
built `self.manifest.state_check`.  The Python code accumulates a `valid`
flag across all checks without short-circuiting (for diagnostics); the
result is their conjunction, which is what is embedded. -/
def matching_parse_results (version : String)
    (self_state_check : Option ManifestStateCheck)
    (manifest : PersistedManifest) : Bool :=
  match manifest.metadata.dbt_version with
  | none => false
  | some v =>
    if v != version then false
    else
      match self_state_check, manifest.state_check with
      | some sc, some osc =>
        let validVars := sc.vars_hash == osc.vars_hash
        let validProfile := sc.profile_hash == osc.profile_hash
        let noMissing := sc.project_hashes.all
          (fun kv => (lookupHash osc.project_hashes kv.1).isSome)
        let hashesMatch := sc.project_hashes.all (fun kv =>
          match lookupHash osc.project_hashes kv.1 with
          | some old => kv.2 == old
          | none => true)
        validVars && validProfile && noMissing && hashesMatch
      | _, _ => false

/-! ## `read_saved_manifest` (`parser/manifest.py`) -/

/-- `ManifestLoader.read_saved_manifest`, embedded.  The filesystem and
`pickle.load` are abstracted: `file_exists` is `os.path.exists(path)` and
`load_result` the outcome of `pickle.load` (`Except.error` models any
exception raised while reading or deserializing; the `try` block also covers
the compatibility check, whose only fallible read — the metadata version
tag — is modelled inside `matching_parse_results`). -/
def read_saved_manifest (partial_parse_enabled : Bool) (file_exists : Bool)
    (version : String) (self_state_check : Option ManifestStateCheck)
    (load_result : Except String PersistedManifest) : Option PersistedManifest :=
  if !partial_parse_enabled then none
  else if file_exists then
    match load_result with
    | .error _ => none
    | .ok m =>
      if matching_parse_results version self_state_check m then some m else none
  else none

/-! ## Incremental parse reuse (`parse_with_cache`, `_get_cached`) -/

/-- A candidate file as seen by `parse_with_cache`: the `FileBlock`'s
underlying `SourceFile`, reduced to the fields compared by the cache. -/
structure SourceFile where
  path : String
  checksum : Hash
deriving DecidableEq, Repr

/-- What the persisted manifest remembers about one file: its checksum and
the ids of every resource that was generated from it. -/
structure OldFileEntry where
  checksum : Hash
  resources : List String
deriving DecidableEq, Repr

/-- The per-file index of a persisted manifest (`old_manifest`). -/
structure OldCacheManifest where
  files : List (String × OldFileEntry)
deriving DecidableEq, Repr

/-- Dictionary lookup in the persisted manifest's file index. -/
def lookupFile (om : OldCacheManifest) (path : String) : Option OldFileEntry :=
  (om.files.find? (fun kv => kv.1 == path)).map (fun kv => kv.2)

/-- Modelled from the spec: `Manifest.has_file` lives in
`dbt.contracts.graph.manifest`, which is not under `src/`.  Per the spec and
the caller's comment it answers whether the persisted manifest contains the
same file with an equal content checksum (different checksum ⇒ `false`). -/
def has_file (om : OldCacheManifest) (f : SourceFile) : Bool :=
  match lookupFile om f.path with
  | some entry => entry.checksum == f.checksum
  | none => false

/-- Modelled from the spec: `Manifest.sanitized_update` lives in
`dbt.contracts.graph.manifest`, which is not under `src/`.  Per the spec it
copies forward all resources previously produced from the file into the
current manifest and reports success.  The current manifest is abstracted as
the list of resource ids inserted so far. -/
def sanitized_update (current : List String) (om : OldCacheManifest)
    (f : SourceFile) : List String × Bool :=
  match lookupFile om f.path with
  | some entry => (current ++ entry.resources, true)
  | none => (current, false)

/-- `ManifestLoader._get_cached`, embedded (`old` is `self.old_manifest`). -/
def _get_cached (old : Option OldCacheManifest) (current : List String)
    (f : SourceFile) : List String × Bool :=
  match old with
  | none => (current, false)
  | some om =>
    if has_file om f then sanitized_update current om f
    else (current, false)

/-- `ManifestLoader.parse_with_cache`, embedded.  `fresh` abstracts the
resource ids that the kind-specific `parser.parse_file` inserts when it is
invoked; the returned flag records whether `parse_file` was invoked. -/
def parse_with_cache (old : Option OldCacheManifest) (current : List String)
    (f : SourceFile) (fresh : List String) : List String × Bool :=
  let res := _get_cached old current f
  if res.2 then (res.1, false) else (res.1 ++ fresh, true)

/-! ## Per-package file cache (`_get_file`, `parse_project`,
`create_macro_manifest`) -/

/-- A raw parsed block (`FileBlock`); only its identity matters here. -/
structure FileBlockT where
  contents : String
deriving DecidableEq, Repr

/-- The loader's `_loaded_file_cache`, keyed by `path.search_key`. -/
structure LoadedFileCache where
  loaded_file_cache : List (String × FileBlockT)
deriving DecidableEq, Repr

/-- `ManifestLoader._get_file`, embedded.  `load_file` is the current
parser's `load_file`; the returned flag records whether it was invoked. -/
def _get_file (load_file : String → FileBlockT) (st : LoadedFileCache)
    (search_key : String) : FileBlockT × LoadedFileCache × Bool :=
  match st.loaded_file_cache.find? (fun kv => kv.1 == search_key) with
  | some kv => (kv.2, st, false)
  | none =>
    let b := load_file search_key
    (b, ⟨st.loaded_file_cache ++ [(search_key, b)]⟩, true)

/-- The `for path in parser.search(): self.parse_with_cache(path, parser)`
loop over one package's paths, restricted to its `_get_file` effects:
returns each block obtained (paired with its load flag) and the final cache
state. -/
def run_package_files (load_file : String → FileBlockT)
    (st : LoadedFileCache) (paths : List String) :
    List (FileBlockT × Bool) × LoadedFileCache :=
  paths.foldl (fun acc key =>
    let r := _get_file load_file acc.2 key
    (acc.1 ++ [(r.1, r.2.2)], r.2.1)) ([], st)

/-- `ManifestLoader.parse_project`, restricted to its file-cache effects: it
executes `self._loaded_file_cache.clear()` before walking the package's
paths, so the incoming cache state is discarded. -/
def parse_project_files (load_file : String → FileBlockT)
    (_st : LoadedFileCache) (paths : List String) :
    List (FileBlockT × Bool) × LoadedFileCache :=
  run_package_files load_file ⟨[]⟩ paths

/-- `ManifestLoader.create_macro_manifest`, restricted to its file-cache
effects: it walks every package's macro paths through `parse_with_cache`
without ever clearing `_loaded_file_cache` between packages.  `load_file`
takes the package id because each package gets its own macro file loader. -/
def create_macro_manifest_files (load_file : Nat → String → FileBlockT)
    (packages : List (Nat × List String)) (st : LoadedFileCache) :
    List (FileBlockT × Bool) × LoadedFileCache :=
  packages.foldl (fun acc pkg =>
    let r := run_package_files (load_file pkg.1) acc.2 pkg.2
    (acc.1 ++ r.1, r.2)) ([], st)

/-- The macro file loader used in the cross-package cache example: the block
records which package's loader produced it. -/
def pkgTaggedLoad : Nat → String → FileBlockT := fun p _ => ⟨toString p⟩

/-! ## Persisting the manifest (`write_manifest_for_partial_parse`,
`get_full_manifest`) -/

/-- A finished manifest, abstracted to the fields that round-trip through
the partial-parse pickle in this development. -/
structure BuiltManifest where
  nodes : List String
deriving DecidableEq, Repr

/-- `ManifestLoader.write_manifest_for_partial_parse`, embedded.  `disk`
abstracts `make_directory` / `open` / `pickle.dump`; the body installs no
exception handler, so a failure propagates to the caller.  On success it
reports the manifests written to the partial-parse file. -/
def write_manifest_for_partial_parse (disk : BuiltManifest → Except String Unit)
    (manifest : BuiltManifest) : Except String (List BuiltManifest) :=
  match disk manifest with
  | .ok _ => .ok [manifest]
  | .error e => .error e

/-- The outcome of `get_full_manifest`: which cache artifacts were
persisted, and either the returned manifest or the propagated exception. -/
structure RunOutcome where
  written : List BuiltManifest
  result : Except String BuiltManifest
deriving Repr

/-- The tail of `ManifestLoader.get_full_manifest` once `loader.load()` has
produced `loaded`: `write_manifest_for_partial_parse` is called
unconditionally (not guarded by `_partial_parse_enabled`) and with no
surrounding handler, then `update_manifest` returns the manifest. -/
def get_full_manifest (disk : BuiltManifest → Except String Unit)
    (loaded : BuiltManifest) : RunOutcome :=
  match write_manifest_for_partial_parse disk loaded with
  | .ok ws => ⟨ws, .ok loaded⟩
  | .error e => ⟨[], .error e⟩

/-! ## Reference resolution (`process_refs` / `process_sources`) -/

/-- The resource kinds (`NodeType`) this development distinguishes. -/
inductive NodeTypeT
  | Model
  | Analysis
  | Test
  | Snapshot
  | Seed
  | Source
  | Exposure
deriving DecidableEq, Repr

/-- `DependsOn`: the dependency-edge list of a resource. -/
structure DependsOn where
  nodes : List String
deriving DecidableEq, Repr

/-- The slice of a node's config touched here (`config.enabled`). -/
structure NodeConfig where
  enabled : Bool
deriving DecidableEq, Repr

/-- The slice of a `ManifestNode` read and written by the resolution
passes. -/
structure ManifestNodeT where
  unique_id : String
  resource_type : NodeTypeT
  package_name : String
  refs : List (List String)
  sources : List (String × String)
  depends_on : DependsOn
  config : NodeConfig
deriving DecidableEq, Repr

/-- The slice of a `ParsedExposure` read and written by the resolution
passes (exposures carry no `config.enabled`). -/
structure ParsedExposureT where
  unique_id : String
  package_name : String
  refs : List (List String)
  sources : List (String × String)
  depends_on : DependsOn
deriving DecidableEq, Repr

/-- Outcome of `manifest.resolve_ref` / `manifest.resolve_source` (both live
in `dbt.contracts.graph.manifest`, outside `src/`, and are abstracted as a
parameter): a concrete target, a `Disabled` wrapper, or `None`. -/
inductive Resolution
  | found (unique_id : String)
  | disabledTarget
  | notFound
deriving DecidableEq, Repr

/-- The fatal errors raised by the resolution passes.  `internalException`
models `dbt.exceptions.InternalException`; the other two model the
user-facing `ref_target_not_found` / `source_target_not_found`, which carry
the mentioning resource, the requested target, and the disabled-vs-missing
distinction. -/
inductive DbtError
  | internalException (msg : String)
  | refTargetNotFound (node_id : String) (target_name : String)
      (target_package : Option String) (disabled : Bool)
  | sourceTargetNotFound (node_id : String) (target_name : String)
      (target_table_name : String) (disabled : Bool)
deriving DecidableEq, Repr

/-- Non-fatal diagnostics emitted for unresolved mentions on test nodes.
Modelled from the spec: `warn_or_error` and the logger live outside `src/`;
per the spec an unresolved reference on a validation check is a non-fatal
warning. -/
inductive DbtEvent
  | refWarning (node_id : String) (target_name : String)
      (target_package : Option String) (disabled : Bool)
  | sourceWarning (node_id : String) (target_name : String)
      (target_table_name : String) (disabled : Bool)
deriving DecidableEq, Repr

/-- `invalid_ref_fail_unless_test`, embedded.  The mentioning resource is
identified by its resource type and unique id. -/
def invalid_ref_fail_unless_test (resource_type : NodeTypeT) (node_id : String)
    (target_model_name : String) (target_model_package : Option String)
    (disabled : Bool) : Except DbtError (List DbtEvent) :=
  if resource_type = .Test then
    .ok [.refWarning node_id target_model_name target_model_package disabled]
  else
    .error (.refTargetNotFound node_id target_model_name target_model_package disabled)

/-- `invalid_source_fail_unless_test`, embedded. -/
def invalid_source_fail_unless_test (resource_type : NodeTypeT) (node_id : String)
    (target_name : String) (target_table_name : String)
    (disabled : Bool) : Except DbtError (List DbtEvent) :=
  if resource_type = .Test then
    .ok [.sourceWarning node_id target_name target_table_name disabled]
  else
    .error (.sourceTargetNotFound node_id target_name target_table_name disabled)

/-- The `len(ref) == 1 / len(ref) == 2 / else` arity dispatch shared by
`_process_refs_for_node` and `_process_refs_for_exposure`. -/
def ref_args : List String → Option (Option String × String)
  | [n] => some (none, n)
  | [p, n] => some (some p, n)
  | _ => none

/-- One iteration of the `for ref in node.refs` loop of
`_process_refs_for_node`: dispatch on arity, resolve, then either append the
dependency edge, or mark the node disabled and fail-unless-test. -/
def process_ref_for_node (resolve_ref : String → Option String → Resolution)
    (node : ManifestNodeT) (ref : List String) :
    Except DbtError (ManifestNodeT × List DbtEvent) :=
  match ref_args ref with
  | none =>
    .error (.internalException
      ("Refs should always be 1 or 2 arguments - got " ++ toString ref.length))
  | some (target_model_package, target_model_name) =>
    match resolve_ref target_model_name target_model_package with
    | .found target_model_id =>
      .ok ({ node with depends_on := ⟨node.depends_on.nodes ++ [target_model_id]⟩ }, [])
    | .disabledTarget =>
      (invalid_ref_fail_unless_test node.resource_type node.unique_id
          target_model_name target_model_package true).map
        (fun evs => ({ node with config := ⟨false⟩ }, evs))
    | .notFound =>
      (invalid_ref_fail_unless_test node.resource_type node.unique_id
          target_model_name target_model_package false).map
        (fun evs => ({ node with config := ⟨false⟩ }, evs))

/-- `_process_refs_for_node`, embedded: fold the loop body over the node's
refs, accumulating warnings and stopping at the first fatal error. -/
def _process_refs_for_node (resolve_ref : String → Option String → Resolution)
    (node : ManifestNodeT) : Except DbtError (ManifestNodeT × List DbtEvent) :=
  node.refs.foldlM (fun acc ref => do
      let r ← process_ref_for_node resolve_ref acc.1 ref
      pure (r.1, acc.2 ++ r.2))
    (node, ([] : List DbtEvent))

/-- One iteration of the `for ref in exposure.refs` loop of
`_process_refs_for_exposure`: same structure, but an exposure is never a
test (its resource type is `Exposure`) and carries no `enabled` flag to
clear. -/
def process_ref_for_exposure (resolve_ref : String → Option String → Resolution)
    (exposure : ParsedExposureT) (ref : List String) :
    Except DbtError (ParsedExposureT × List DbtEvent) :=
  match ref_args ref with
  | none =>
    .error (.internalException
      ("Refs should always be 1 or 2 arguments - got " ++ toString ref.length))
  | some (target_model_package, target_model_name) =>
    match resolve_ref target_model_name target_model_package with
    | .found target_model_id =>
      .ok ({ exposure with
              depends_on := ⟨exposure.depends_on.nodes ++ [target_model_id]⟩ }, [])
    | .disabledTarget =>
      (invalid_ref_fail_unless_test .Exposure exposure.unique_id
          target_model_name target_model_package true).map
        (fun evs => (exposure, evs))
    | .notFound =>
      (invalid_ref_fail_unless_test .Exposure exposure.unique_id
          target_model_name target_model_package false).map
        (fun evs => (exposure, evs))

/-- `_process_refs_for_exposure`, embedded. -/
def _process_refs_for_exposure (resolve_ref : String → Option String → Resolution)
    (exposure : ParsedExposureT) : Except DbtError (ParsedExposureT × List DbtEvent) :=
  exposure.refs.foldlM (fun acc ref => do
      let r ← process_ref_for_exposure resolve_ref acc.1 ref
      pure (r.1, acc.2 ++ r.2))
    (exposure, ([] : List DbtEvent))

/-- One iteration of the `for source_name, table_name in node.sources` loop
of `_process_sources_for_node`. -/
def process_source_for_node (resolve_source : String → String → Resolution)
    (node : ManifestNodeT) (mention : String × String) :
    Except DbtError (ManifestNodeT × List DbtEvent) :=
  match resolve_source mention.1 mention.2 with
  | .found target_source_id =>
    .ok ({ node with depends_on := ⟨node.depends_on.nodes ++ [target_source_id]⟩ }, [])
  | .disabledTarget =>
    (invalid_source_fail_unless_test node.resource_type node.unique_id
        mention.1 mention.2 true).map
      (fun evs => ({ node with config := ⟨false⟩ }, evs))
  | .notFound =>
    (invalid_source_fail_unless_test node.resource_type node.unique_id
        mention.1 mention.2 false).map
      (fun evs => ({ node with config := ⟨false⟩ }, evs))

/-- `_process_sources_for_node`, embedded. -/
def _process_sources_for_node (resolve_source : String → String → Resolution)
    (node : ManifestNodeT) : Except DbtError (ManifestNodeT × List DbtEvent) :=
  node.sources.foldlM (fun acc mention => do
      let r ← process_source_for_node resolve_source acc.1 mention
      pure (r.1, acc.2 ++ r.2))
    (node, ([] : List DbtEvent))

/-- One iteration of the source loop of `_process_sources_for_exposure`. -/
def process_source_for_exposure (resolve_source : String → String → Resolution)
    (exposure : ParsedExposureT) (mention : String × String) :
    Except DbtError (ParsedExposureT × List DbtEvent) :=
  match resolve_source mention.1 mention.2 with
  | .found target_source_id =>
    .ok ({ exposure with
            depends_on := ⟨exposure.depends_on.nodes ++ [target_source_id]⟩ }, [])
  | .disabledTarget =>
    (invalid_source_fail_unless_test .Exposure exposure.unique_id
        mention.1 mention.2 true).map (fun evs => (exposure, evs))
  | .notFound =>
    (invalid_source_fail_unless_test .Exposure exposure.unique_id
        mention.1 mention.2 false).map (fun evs => (exposure, evs))

/-- `_process_sources_for_exposure`, embedded. -/
def _process_sources_for_exposure (resolve_source : String → String → Resolution)
    (exposure : ParsedExposureT) : Except DbtError (ParsedExposureT × List DbtEvent) :=
  exposure.sources.foldlM (fun acc mention => do
      let r ← process_source_for_exposure resolve_source acc.1 mention
      pure (r.1, acc.2 ++ r.2))
    (exposure, ([] : List DbtEvent))

/-! ## Test selection (`task/test.py`) -/

/-- The slice of a manifest node read by `TestSelector`. -/
structure SelNode where
  resource_type : NodeTypeT
  depends_on_nodes : List String
deriving DecidableEq, Repr

/-- `manifest.nodes` as seen by `TestSelector` (a dict keyed by unique id). -/
structure SelManifest where
  nodes : List (String × SelNode)
deriving DecidableEq, Repr

/-- Dictionary lookup in `manifest.nodes`. -/
def lookupNode (m : SelManifest) (uid : String) : Option SelNode :=
  (m.nodes.find? (fun kv => kv.1 == uid)).map (fun kv => kv.2)

/-- Modelled from the spec: `Graph.select_successors` lives in `dbt.graph`,
which is not under `src/`; per the spec it scans every direct successor
edge from the selected set.  The dependency graph is given by its edge
list. -/
def select_successors (edges : List (String × String)) (selected : Finset String) :
    Finset String :=
  ((edges.filter (fun e => decide (e.1 ∈ selected))).map (fun e => e.2)).toFinset

/-- The `unique_id in self.manifest.nodes` guard plus the
`node.resource_type == NodeType.Test` check of `expand_selection`. -/
def is_selected_test (m : SelManifest) (uid : String) : Bool :=
  match lookupNode m uid with
  | some n => n.resource_type == .Test
  | none => false

/-- `TestSelector.expand_selection`, embedded. -/
def expand_selection (edges : List (String × String)) (m : SelManifest)
    (selected : Finset String) (greedy : Bool) : Finset String × Finset String :=
  let selected_tests := (select_successors edges selected).filter
    (fun uid => is_selected_test m uid = true)
  (if greedy then selected ∪ selected_tests else selected, selected_tests)

/-- The body of the `for unique_id in greedy_nodes` loop of
`incorporate_greedy_nodes`: a candidate present in `manifest.nodes` is
added when its whole dependency set is already inside the selection, which
is mutated in place as the loop runs. -/
def incorporate_step (m : SelManifest) (sel : Finset String) (uid : String) :
    Finset String :=
  match lookupNode m uid with
  | some n =>
    if n.depends_on_nodes.all (fun d => decide (d ∈ sel)) then insert uid sel
    else sel
  | none => sel

/-- `TestSelector.incorporate_greedy_nodes`, embedded.  Python iterates the
`greedy_nodes` set in an unspecified order while mutating `selected` in
place; the pool is embedded as a list, making the iteration order
explicit. -/
def incorporate_greedy_nodes (m : SelManifest) (selected : Finset String)
    (greedy_nodes : List String) : Finset String :=
  greedy_nodes.foldl (incorporate_step m) selected

/-- The manifest of the single-pass example: a model, a test on the model,
and a test depending on the first test. -/
def greedyExampleManifest : SelManifest :=
  ⟨[("model.p.m", ⟨.Model, []⟩),
    ("test.p.t1", ⟨.Test, ["model.p.m"]⟩),
    ("test.p.t2", ⟨.Test, ["test.p.t1"]⟩)]⟩

/-! ## Concrete instances used by witnesses -/

/-- A persisted manifest file index with one cached file. -/
def om0 : OldCacheManifest :=
  ⟨[("models/a.sql", ⟨"h1", ["model.p.a", "model.p.a2"]⟩)]⟩

/-- The same file, unchanged on disk. -/
def f0 : SourceFile := ⟨"models/a.sql", "h1"⟩

/-- A small finished manifest. -/
def m0 : BuiltManifest := ⟨["model.p.a"]⟩

/-- A current-run state check with one package. -/
def sc0 : ManifestStateCheck := ⟨"v", "p", [("pkg", "h1")]⟩

/-- A schema test node with one bare ref. -/
def testNode0 : ManifestNodeT :=
  ⟨"test.p.not_null_a", .Test, "p", [["a"]], [], ⟨[]⟩, ⟨true⟩⟩

/-- A plain model node with one bare ref. -/
def modelNode0 : ManifestNodeT :=
  ⟨"model.p.b", .Model, "p", [["a"]], [], ⟨[]⟩, ⟨true⟩⟩

/-- An exposure with one bare ref. -/
def exposure0 : ParsedExposureT :=
  ⟨"exposure.p.dash", "p", [["a"]], [], ⟨[]⟩⟩

end Dbt

namespace Dbt

/-! ## Helper lemmas for `matching_parse_results` -/

theorem lookupHash_cons_ne (l : List (String × Hash)) (k k' : String) (v : Hash)
    (h : k' ≠ k) : lookupHash ((k, v) :: l) k' = lookupHash l k' := by
  simp only [lookupHash, List.find?_cons]
  have : ((k, v).1 == k') = false := by
    simp only [beq_eq_false_iff_ne, ne_eq]
    exact fun hk => h hk.symm
  simp [this]

/-- Characterization of cache acceptance when both state checks are present. -/
theorem matching_true_iff (version : String) (sc osc : ManifestStateCheck)
    (meta : ManifestMetadata) :
    matching_parse_results version (some sc) ⟨meta, some osc⟩ = true ↔
      (meta.dbt_version = some version ∧
       sc.vars_hash = osc.vars_hash ∧
       sc.profile_hash = osc.profile_hash ∧
       ∀ kv ∈ sc.project_hashes,
         ∃ h, lookupHash osc.project_hashes kv.1 = some h ∧ kv.2 = h) := by
  unfold matching_parse_results
  cases hmeta : meta.dbt_version with
  | none => simp [hmeta]
  | some v =>
    simp only
    by_cases hv : v = version
    · subst hv
      simp only [bne_self_eq_false, Bool.false_eq_true, if_false]
      constructor
      · intro h
        simp only [Bool.and_eq_true, List.all_eq_true, beq_iff_eq] at h
        obtain ⟨⟨⟨hvars, hprof⟩, hmiss⟩, hmatch⟩ := h
        refine ⟨by simp, hvars, hprof, fun kv hkv => ?_⟩
        have h1 := hmiss kv hkv
        have h2 := hmatch kv hkv
        cases hl : lookupHash osc.project_hashes kv.1 with
        | none => rw [hl] at h1; simp at h1
        | some old =>
          rw [hl] at h2
          simp only [beq_iff_eq] at h2
          exact ⟨old, rfl, h2⟩
      · rintro ⟨-, hvars, hprof, hkv⟩
        simp only [Bool.and_eq_true, List.all_eq_true, beq_iff_eq]
        refine ⟨⟨⟨hvars, hprof⟩, fun kv hm => ?_⟩, fun kv hm => ?_⟩
        · obtain ⟨h, hl, _⟩ := hkv kv hm
          rw [hl]; rfl
        · obtain ⟨h, hl, he⟩ := hkv kv hm
          rw [hl]
          simp [he]
    · have hbne : (v != version) = true := by simp [bne_iff_ne, hv]
      rw [hbne]
      simp only [if_true, Bool.false_eq_true, false_iff, not_and]
      intro hm
      exact (hv (Option.some.inj hm)).elim

/-- Extending the persisted hash set by a package name unknown to the
current run does not change the verdict. -/
theorem matching_extend_irrelevant (version : String) (sc osc : ManifestStateCheck)
    (meta : ManifestMetadata) (k : String) (v : Hash)
    (hk : ∀ kv ∈ sc.project_hashes, kv.1 ≠ k) :
    matching_parse_results version (some sc)
        ⟨meta, some ⟨osc.vars_hash, osc.profile_hash, (k, v) :: osc.project_hashes⟩⟩
      = matching_parse_results version (some sc) ⟨meta, some osc⟩ := by
  rw [Bool.eq_iff_iff, matching_true_iff, matching_true_iff]
  dsimp only
  constructor
  · rintro ⟨h1, h2, h3, h4⟩
    refine ⟨h1, h2, h3, fun kv hm => ?_⟩
    have h5 := h4 kv hm
    rwa [lookupHash_cons_ne osc.project_hashes k kv.1 v (hk kv hm)] at h5
  · rintro ⟨h1, h2, h3, h4⟩
    refine ⟨h1, h2, h3, fun kv hm => ?_⟩
    rw [lookupHash_cons_ne osc.project_hashes k kv.1 v (hk kv hm)]
    exact h4 kv hm

/-! ## Claim C1 -/

/-- **C1.** With both state checks present, `matching_parse_results` accepts
the cache iff: the persisted tool-version tag exists and equals the current
version (a missing/malformed tag rejects), the vars hashes agree, the
profile hashes agree, no package name of the current run is missing from the
persisted set, and every package name present in both has equal hashes;
moreover a package name present only in the persisted set never by itself
changes the verdict. -/
theorem matching_parse_results_accepts_iff (version : String)
    (sc osc : ManifestStateCheck) (meta : ManifestMetadata) :
    (matching_parse_results version (some sc) ⟨meta, some osc⟩ = true ↔
      (meta.dbt_version = some version ∧
       sc.vars_hash = osc.vars_hash ∧
       sc.profile_hash = osc.profile_hash ∧
       (∀ kv ∈ sc.project_hashes, (lookupHash osc.project_hashes kv.1).isSome) ∧
       (∀ kv ∈ sc.project_hashes, ∀ h,
          lookupHash osc.project_hashes kv.1 = some h → kv.2 = h)))
    ∧ ∀ k v, (∀ kv ∈ sc.project_hashes, kv.1 ≠ k) →
        matching_parse_results version (some sc)
            ⟨meta, some ⟨osc.vars_hash, osc.profile_hash, (k, v) :: osc.project_hashes⟩⟩
          = matching_parse_results version (some sc) ⟨meta, some osc⟩ := by
  constructor
  · rw [matching_true_iff]
    constructor
    · rintro ⟨h1, h2, h3, h4⟩
      refine ⟨h1, h2, h3, fun kv hm => ?_, fun kv hm h hl => ?_⟩
      · obtain ⟨x, hx, -⟩ := h4 kv hm
        rw [hx]; rfl
      · obtain ⟨x, hx, he⟩ := h4 kv hm
        rw [hx] at hl
        exact Option.some.inj hl ▸ he
    · rintro ⟨h1, h2, h3, h4, h5⟩
      refine ⟨h1, h2, h3, fun kv hm => ?_⟩
      have h6 := h4 kv hm
      cases hx : lookupHash osc.project_hashes kv.1 with
      | none => rw [hx] at h6; simp at h6
      | some x => exact ⟨x, rfl, h5 kv hm x hx⟩
  · exact fun k v hk => matching_extend_irrelevant version sc osc meta k v hk

/-- Witness for `matching_parse_results_accepts_iff`: a persisted set with
the stale extra package `legacy` is still accepted. -/
theorem matching_parse_results_accepts_iff_witness :
    matching_parse_results "0.19.0" (some sc0)
        ⟨⟨some "0.19.0"⟩, some ⟨"v", "p", [("legacy", "hx"), ("pkg", "h1")]⟩⟩ = true :=
  ((matching_parse_results_accepts_iff "0.19.0" sc0 ⟨"v", "p", [("pkg", "h1")]⟩
      ⟨some "0.19.0"⟩).2 "legacy" "hx" (by decide)).trans (by decide)

/-! ## Claim C8 -/

/-- **C8.** Every failure while obtaining the persisted manifest — partial
parsing disabled, missing file, or any exception while reading or
deserializing it — makes `read_saved_manifest` return `none`, forcing a full
parse; the function is total (never raises), and it only ever returns a
manifest that deserialized successfully and passed the compatibility
check. -/
theorem read_saved_manifest_failure_policy (enabled file_exists : Bool)
    (version : String) (ssc : Option ManifestStateCheck)
    (load_result : Except String PersistedManifest) :
    ((enabled = false ∨ file_exists = false ∨ ∃ e, load_result = .error e) →
      read_saved_manifest enabled file_exists version ssc load_result = none)
    ∧ (∀ m, read_saved_manifest enabled file_exists version ssc load_result = some m →
        load_result = .ok m ∧ matching_parse_results version ssc m = true) := by
  constructor
  · rintro (rfl | rfl | ⟨e, rfl⟩)
    · simp [read_saved_manifest]
    · cases enabled <;> simp [read_saved_manifest]
    · cases enabled <;> cases file_exists <;> simp [read_saved_manifest]
  · intro m hm
    cases enabled with
    | false => simp [read_saved_manifest] at hm
    | true =>
      cases file_exists with
      | false => simp [read_saved_manifest] at hm
      | true =>
        cases load_result with
        | error e => simp [read_saved_manifest] at hm
        | ok pm =>
          by_cases hmatch : matching_parse_results version ssc pm = true
          · simp only [read_saved_manifest, Bool.not_true, if_neg, hmatch,
              if_true, Bool.false_eq_true, if_false] at hm
            cases Option.some.inj hm
            exact ⟨rfl, hmatch⟩
          · simp [read_saved_manifest, hmatch] at hm

/-- Witness for `read_saved_manifest_failure_policy`: a corrupt pickle
degrades to `none`. -/
theorem read_saved_manifest_failure_policy_witness :
    read_saved_manifest true true "0.19.0" none (.error "corrupt pickle") = none :=
  (read_saved_manifest_failure_policy true true "0.19.0" none
      (.error "corrupt pickle")).1 (Or.inr (Or.inr ⟨"corrupt pickle", rfl⟩))

/-! ## Claim C2 -/

/-- **C2.** `parse_with_cache`: with no accepted cache, `parse_file` is
invoked and its resources inserted; with an accepted cache holding the same
file at an equal checksum, all resources previously produced from that file
are copied forward and `parse_file` is not invoked; if the file is absent
from the cache or the checksums differ, `parse_file` is invoked and none of
the old file's resources are merged. -/
theorem parse_with_cache_policy (current fresh : List String) (f : SourceFile)
    (om : OldCacheManifest) :
    parse_with_cache none current f fresh = (current ++ fresh, true)
    ∧ (∀ entry, lookupFile om f.path = some entry → entry.checksum = f.checksum →
        parse_with_cache (some om) current f fresh = (current ++ entry.resources, false))
    ∧ (lookupFile om f.path = none →
        parse_with_cache (some om) current f fresh = (current ++ fresh, true))
    ∧ (∀ entry, lookupFile om f.path = some entry → entry.checksum ≠ f.checksum →
        parse_with_cache (some om) current f fresh = (current ++ fresh, true)) := by
  refine ⟨rfl, ?_, ?_, ?_⟩
  · intro entry hl hck
    simp [parse_with_cache, _get_cached, has_file, sanitized_update, hl, hck]
  · intro hl
    simp [parse_with_cache, _get_cached, has_file, sanitized_update, hl]
  · intro entry hl hck
    simp [parse_with_cache, _get_cached, has_file, sanitized_update, hl, hck]

/-- Witness for `parse_with_cache_policy`: an unchanged cached file has its
two resources copied forward with no reparse. -/
theorem parse_with_cache_policy_witness :
    parse_with_cache (some om0) ["seed.p.s"] f0 ["model.p.fresh"]
      = (["seed.p.s", "model.p.a", "model.p.a2"], false) :=
  (parse_with_cache_policy ["seed.p.s"] ["model.p.fresh"] f0 om0).2.1
    ⟨"h1", ["model.p.a", "model.p.a2"]⟩ (by decide) rfl

/-! ## Claim C6 (corrected) -/

/-- **C6 counterexample.** A failure while persisting the manifest is fatal:
`get_full_manifest` wraps `write_manifest_for_partial_parse` in no handler,
so with a failing disk write the run propagates the error instead of
returning its manifest — contradicting the claim that persistence failure
is reported but not fatal to the run's results. -/
theorem write_failure_is_fatal_counterexample :
    (get_full_manifest (fun _ => .error "disk full") m0).result
      = .error "disk full" := rfl

/-- **C6 amended.** On successful completion of a load the loader persists
the finished manifest as a cache artifact for the next run and returns the
manifest; but a failure during this persistence step propagates and is
fatal: nothing is persisted and the run fails with that error instead of
returning its manifest. -/
theorem get_full_manifest_persistence (disk : BuiltManifest → Except String Unit)
    (loaded : BuiltManifest) :
    (disk loaded = .ok () →
      get_full_manifest disk loaded = ⟨[loaded], .ok loaded⟩)
    ∧ ∀ e, disk loaded = .error e →
        get_full_manifest disk loaded = ⟨[], .error e⟩ := by
  constructor
  · intro h
    simp [get_full_manifest, write_manifest_for_partial_parse, h]
  · intro e h
    simp [get_full_manifest, write_manifest_for_partial_parse, h]

/-- Witness for `get_full_manifest_persistence`: with a healthy disk the
manifest is persisted and returned. -/
theorem get_full_manifest_persistence_witness :
    get_full_manifest (fun _ => .ok ()) m0 = ⟨[m0], .ok m0⟩ :=
  (get_full_manifest_persistence (fun _ => .ok ()) m0).1 rfl

/-! ## Claim C7 (corrected) -/

/-- **C7 counterexample.** `create_macro_manifest` never clears
`_loaded_file_cache` between packages: with two packages both searching the
search key `macros/util.sql`, the second package receives the block loaded
by the first package's loader (`⟨"1"⟩`, load flag `false`) — a cached block
reused across packages, contradicting the claim that the cache is cleared
at the start of every package's parse pass. -/
theorem macro_cache_cross_package_reuse_counterexample :
    create_macro_manifest_files pkgTaggedLoad
        [(1, ["macros/util.sql"]), (2, ["macros/util.sql"])] ⟨[]⟩
      = ([(⟨"1"⟩, true), (⟨"1"⟩, false)],
         ⟨[("macros/util.sql", ⟨"1"⟩)]⟩) := by decide

/-- **C7 amended.** Within a package's pass the first `_get_file` call for a
search key invokes `load_file` and caches the block, and every later call
for the same key returns the cached block without loading; `parse_project`
clears the cache at the start of each package's pass, so its result is
independent of previously cached blocks and no block is reused across
packages there (`create_macro_manifest`, by contrast, does not clear, as
the counterexample shows). -/
theorem file_cache_policy (load_file : String → FileBlockT)
    (st : LoadedFileCache) (key : String) (paths : List String) :
    (st.loaded_file_cache.find? (fun kv => kv.1 == key) = none →
      _get_file load_file st key
        = (load_file key, ⟨st.loaded_file_cache ++ [(key, load_file key)]⟩, true))
    ∧ (∀ kv, st.loaded_file_cache.find? (fun e => e.1 == key) = some kv →
        _get_file load_file st key = (kv.2, st, false))
    ∧ (∀ st2, parse_project_files load_file st paths
        = parse_project_files load_file st2 paths)
    ∧ run_package_files load_file ⟨[]⟩ [key, key]
        = ([(load_file key, true), (load_file key, false)],
           ⟨[(key, load_file key)]⟩) := by
  refine ⟨?_, ?_, fun st2 => rfl, ?_⟩
  · intro h
    simp [_get_file, h]
  · intro kv h
    simp [_get_file, h]
  · simp [run_package_files, _get_file]

/-- Witness for `file_cache_policy`: an empty cache loads and caches. -/
theorem file_cache_policy_witness :
    _get_file (fun _ => ⟨"b"⟩) ⟨[]⟩ "models/a.sql"
      = (⟨"b"⟩, ⟨[("models/a.sql", ⟨"b"⟩)]⟩, true) :=
  (file_cache_policy (fun _ => ⟨"b"⟩) ⟨[]⟩ "models/a.sql" []).1 rfl

/-! ## Claim C3 -/

/-- **C3.** For a ref or source mention (on a node or an exposure) that
resolves to a disabled target or to no target at all: no dependency edge is
appended; if the mentioning resource is a test it is marked disabled
(`config.enabled := false`) and processing continues non-fatally with a
warning; otherwise a fatal resolution error is raised carrying the
mentioning resource, the requested target, and the disabled-vs-missing
distinction (exposures are never tests, so their unresolved mentions are
always fatal). -/
theorem unresolved_mention_policy
    (resolve_ref : String → Option String → Resolution)
    (resolve_source : String → String → Resolution)
    (node : ManifestNodeT) (exposure : ParsedExposureT)
    (ref : List String) (name : String) (pkg : Option String)
    (src_name tbl_name : String) (disabled : Bool)
    (href : ref_args ref = some (pkg, name))
    (hres : resolve_ref name pkg
      = (if disabled then .disabledTarget else .notFound))
    (hsrc : resolve_source src_name tbl_name
      = (if disabled then .disabledTarget else .notFound)) :
    ((node.resource_type = .Test →
        process_ref_for_node resolve_ref node ref =
          .ok ({ node with config := ⟨false⟩ },
               [.refWarning node.unique_id name pkg disabled]))
     ∧ (node.resource_type ≠ .Test →
        process_ref_for_node resolve_ref node ref =
          .error (.refTargetNotFound node.unique_id name pkg disabled)))
    ∧ process_ref_for_exposure resolve_ref exposure ref =
        .error (.refTargetNotFound exposure.unique_id name pkg disabled)
    ∧ ((node.resource_type = .Test →
        process_source_for_node resolve_source node (src_name, tbl_name) =
          .ok ({ node with config := ⟨false⟩ },
               [.sourceWarning node.unique_id src_name tbl_name disabled]))
     ∧ (node.resource_type ≠ .Test →
        process_source_for_node resolve_source node (src_name, tbl_name) =
          .error (.sourceTargetNotFound node.unique_id src_name tbl_name disabled)))
    ∧ process_source_for_exposure resolve_source exposure (src_name, tbl_name) =
        .error (.sourceTargetNotFound exposure.unique_id src_name tbl_name disabled) := by
  cases disabled <;>
    simp only [if_true, if_false, Bool.false_eq_true] at hres hsrc <;>
    refine ⟨⟨fun ht => ?_, fun ht => ?_⟩, ?_, ⟨fun ht => ?_, fun ht => ?_⟩, ?_⟩ <;>
    simp_all [process_ref_for_node, process_ref_for_exposure, process_source_for_node,
      process_source_for_exposure, invalid_ref_fail_unless_test,
      invalid_source_fail_unless_test, Except.map]

/-- Witness for `unresolved_mention_policy`: a test node with a dangling ref
is disabled with a warning rather than failing the load. -/
theorem unresolved_mention_policy_witness :
    process_ref_for_node (fun _ _ => .notFound) testNode0 ["a"]
      = .ok ({ testNode0 with config := ⟨false⟩ },
             [.refWarning "test.p.not_null_a" "a" none false]) :=
  ((unresolved_mention_policy (fun _ _ => .notFound) (fun _ _ => .notFound)
      testNode0 exposure0 ["a"] "a" none "src" "tbl" false rfl rfl rfl).1.1) rfl

/-! ## Claim C9 -/

/-- **C9.** A ref whose argument list has length other than 1 or 2 raises
`InternalException` — for nodes of every resource type (tests included) and
for exposures alike — and that error is distinct from the user-facing
resolution error. -/
theorem malformed_ref_arity_internal
    (resolve_ref : String → Option String → Resolution)
    (node : ManifestNodeT) (exposure : ParsedExposureT) (ref : List String)
    (h1 : ref.length ≠ 1) (h2 : ref.length ≠ 2) :
    process_ref_for_node resolve_ref node ref =
      .error (.internalException
        ("Refs should always be 1 or 2 arguments - got " ++ toString ref.length))
    ∧ process_ref_for_exposure resolve_ref exposure ref =
      .error (.internalException
        ("Refs should always be 1 or 2 arguments - got " ++ toString ref.length))
    ∧ ∀ nid t p d, DbtError.internalException
        ("Refs should always be 1 or 2 arguments - got " ++ toString ref.length)
        ≠ .refTargetNotFound nid t p d := by
  have hargs : ref_args ref = none := by
    cases ref with
    | nil => rfl
    | cons a t =>
      cases t with
      | nil => exact absurd rfl h1
      | cons b t2 =>
        cases t2 with
        | nil => exact absurd rfl h2
        | cons c t3 => rfl
  refine ⟨?_, ?_, ?_⟩
  · simp [process_ref_for_node, hargs]
  · simp [process_ref_for_exposure, hargs]
  · intro nid t p d h
    cases h

/-- Witness for `malformed_ref_arity_internal`: a three-argument ref on a
plain model raises the internal-consistency error. -/
theorem malformed_ref_arity_internal_witness :
    process_ref_for_node (fun _ _ => .notFound) modelNode0 ["a", "b", "c"]
      = .error (.internalException
          ("Refs should always be 1 or 2 arguments - got "
            ++ toString (["a", "b", "c"] : List String).length)) :=
  (malformed_ref_arity_internal (fun _ _ => .notFound) modelNode0 exposure0
      ["a", "b", "c"] (by decide) (by decide)).1

/-! ## Helper lemmas for the test selector -/

theorem subset_incorporate_step (m : SelManifest) (sel : Finset String)
    (uid : String) : sel ⊆ incorporate_step m sel uid := by
  unfold incorporate_step
  cases lookupNode m uid with
  | none => exact Finset.Subset.refl sel
  | some n =>
    dsimp only
    split
    · exact Finset.subset_insert uid sel
    · exact Finset.Subset.refl sel

theorem subset_incorporate (m : SelManifest) (sel : Finset String)
    (l : List String) : sel ⊆ incorporate_greedy_nodes m sel l := by
  induction l generalizing sel with
  | nil => exact Finset.Subset.refl sel
  | cons a t ih =>
    exact (subset_incorporate_step m sel a).trans (ih (incorporate_step m sel a))

theorem mem_incorporate_step (m : SelManifest) (sel : Finset String)
    (a x : String) (hx : x ∈ incorporate_step m sel a) :
    x ∈ sel ∨ (x = a ∧ ∃ n, lookupNode m a = some n ∧
      ∀ d ∈ n.depends_on_nodes, d ∈ sel) := by
  unfold incorporate_step at hx
  cases hl : lookupNode m a with
  | none => simp only [hl] at hx; exact Or.inl hx
  | some n =>
    simp only [hl] at hx
    by_cases hall : n.depends_on_nodes.all (fun d => decide (d ∈ sel)) = true
    · rw [if_pos hall] at hx
      rcases Finset.mem_insert.mp hx with h | h
      · refine Or.inr ⟨h, n, rfl, fun d hd => ?_⟩
        exact of_decide_eq_true (List.all_eq_true.mp hall d hd)
      · exact Or.inl h
    · rw [if_neg hall] at hx
      exact Or.inl hx

theorem mem_incorporate (m : SelManifest) (sel : Finset String)
    (l : List String) (x : String) (hx : x ∈ incorporate_greedy_nodes m sel l) :
    x ∈ sel ∨ (x ∈ l ∧ ∃ n, lookupNode m x = some n ∧
      ∀ d ∈ n.depends_on_nodes, d ∈ incorporate_greedy_nodes m sel l) := by
  induction l generalizing sel with
  | nil => exact Or.inl hx
  | cons a t ih =>
    have hx2 : x ∈ incorporate_greedy_nodes m (incorporate_step m sel a) t := hx
    rcases ih (incorporate_step m sel a) hx2 with h | ⟨hxt, n, hn, hdeps⟩
    · rcases mem_incorporate_step m sel a x h with h2 | ⟨rfl, n, hn, hdeps⟩
      · exact Or.inl h2
      · refine Or.inr ⟨List.mem_cons_self _ _, n, hn, fun d hd => ?_⟩
        exact subset_incorporate m (incorporate_step m sel x) t
          (subset_incorporate_step m sel x (hdeps d hd))
    · exact Or.inr ⟨List.mem_cons_of_mem a hxt, n, hn, hdeps⟩

theorem incorporate_complete (m : SelManifest) (sel0 sel : Finset String)
    (l : List String) (x : String) (n : SelNode)
    (hn : lookupNode m x = some n)
    (hdeps : ∀ d ∈ n.depends_on_nodes, d ∈ sel0) :
    x ∈ l → sel0 ⊆ sel → x ∈ incorporate_greedy_nodes m sel l := by
  induction l generalizing sel with
  | nil => intro h _; cases h
  | cons a t ih =>
    intro hmem hsub
    rcases List.mem_cons.mp hmem with rfl | hxt
    · have hall : n.depends_on_nodes.all (fun d => decide (d ∈ sel)) = true :=
        List.all_eq_true.mpr (fun d hd => decide_eq_true (hsub (hdeps d hd)))
      have hstep : x ∈ incorporate_step m sel x := by
        simp only [incorporate_step, hn, hall, if_true]
        exact Finset.mem_insert_self x sel
      exact subset_incorporate m (incorporate_step m sel x) t hstep
    · exact ih (incorporate_step m sel a) hxt
        (hsub.trans (subset_incorporate_step m sel a))

theorem mem_selected_tests (edges : List (String × String)) (m : SelManifest)
    (selected : Finset String) (uid : String) :
    uid ∈ (expand_selection edges m selected true).2 ↔
      ((∃ s ∈ selected, (s, uid) ∈ edges) ∧
       ∃ n, lookupNode m uid = some n ∧ n.resource_type = .Test) := by
  unfold expand_selection select_successors
  simp only [Finset.mem_filter, List.mem_toFinset, List.mem_map, List.mem_filter,
    decide_eq_true_eq]
  constructor
  · rintro ⟨⟨e, ⟨he, hsel⟩, rfl⟩, htest⟩
    refine ⟨⟨e.1, hsel, ?_⟩, ?_⟩
    · exact (Prod.mk.eta (p := e)) ▸ he
    · unfold is_selected_test at htest
      cases hn : lookupNode m e.2 with
      | none => rw [hn] at htest; cases htest
      | some n =>
        rw [hn] at htest
        exact ⟨n, rfl, eq_of_beq htest⟩
  · rintro ⟨⟨s, hs, he⟩, n, hn, ht⟩
    refine ⟨⟨(s, uid), ⟨he, hs⟩, rfl⟩, ?_⟩
    unfold is_selected_test
    rw [hn]
    simp [ht]

/-! ## Claim C4 -/

/-- **C4.** `expand_selection` with `greedy := false` returns the selection
unchanged as its first component; with `greedy := true` it returns the
selection united with the candidate checks; the candidate-check component is
identical under both flags and consists of exactly the direct successors of
the selection that are test nodes present in `manifest.nodes`. -/
theorem expand_selection_spec (edges : List (String × String)) (m : SelManifest)
    (selected : Finset String) :
    (expand_selection edges m selected false).1 = selected
    ∧ (expand_selection edges m selected true).1
        = selected ∪ (expand_selection edges m selected true).2
    ∧ (expand_selection edges m selected false).2
        = (expand_selection edges m selected true).2
    ∧ ∀ uid, uid ∈ (expand_selection edges m selected true).2 ↔
        ((∃ s ∈ selected, (s, uid) ∈ edges) ∧
         ∃ n, lookupNode m uid = some n ∧ n.resource_type = .Test) :=
  ⟨rfl, rfl, rfl, fun uid => mem_selected_tests edges m selected uid⟩

/-- Witness for `expand_selection_spec`: the test on the selected model is a
candidate check. -/
theorem expand_selection_spec_witness :
    "test.p.t1" ∈ (expand_selection [("model.p.m", "test.p.t1")]
        greedyExampleManifest {"model.p.m"} true).2 :=
  ((expand_selection_spec [("model.p.m", "test.p.t1")] greedyExampleManifest
      {"model.p.m"}).2.2.2 "test.p.t1").mpr
    ⟨⟨"model.p.m", by decide, by decide⟩, ⟨.Test, ["model.p.m"]⟩, by decide, rfl⟩

/-! ## Claim C5 -/

/-- **C5.** `incorporate_greedy_nodes` returns the selection enlarged by
exactly those candidates whose whole dependency set is inside the working
selection at the moment they are examined: the input selection is preserved;
every added id is a candidate present in `manifest.nodes` whose dependencies
all end up selected; a candidate whose dependencies already sit in the input
selection is always added; and the rule is single-pass — in the example,
`test.p.t2` (whose dependency `test.p.t1` is itself a not-yet-incorporated
candidate when `test.p.t2` is examined) is not included, though a second
invocation would include it. -/
theorem incorporate_greedy_nodes_spec (m : SelManifest) (selected : Finset String)
    (greedy_nodes : List String) :
    selected ⊆ incorporate_greedy_nodes m selected greedy_nodes
    ∧ (∀ uid ∈ incorporate_greedy_nodes m selected greedy_nodes,
        uid ∈ selected ∨ (uid ∈ greedy_nodes ∧ ∃ n, lookupNode m uid = some n ∧
          ∀ d ∈ n.depends_on_nodes,
            d ∈ incorporate_greedy_nodes m selected greedy_nodes))
    ∧ (∀ uid n, uid ∈ greedy_nodes → lookupNode m uid = some n →
        (∀ d ∈ n.depends_on_nodes, d ∈ selected) →
        uid ∈ incorporate_greedy_nodes m selected greedy_nodes)
    ∧ "test.p.t2" ∉ incorporate_greedy_nodes greedyExampleManifest
        {"model.p.m"} ["test.p.t2", "test.p.t1"]
    ∧ "test.p.t2" ∈ incorporate_greedy_nodes greedyExampleManifest
        (incorporate_greedy_nodes greedyExampleManifest {"model.p.m"}
          ["test.p.t2", "test.p.t1"]) ["test.p.t2", "test.p.t1"] :=
  ⟨subset_incorporate m selected greedy_nodes,
   fun uid h => mem_incorporate m selected greedy_nodes uid h,
   fun uid n hmem hn hdeps =>
     incorporate_complete m selected selected greedy_nodes uid n hn hdeps hmem
       (Finset.Subset.refl selected),
   by decide, by decide⟩

/-- Witness for `incorporate_greedy_nodes_spec`: the test whose only
dependency is the selected model gets incorporated. -/
theorem incorporate_greedy_nodes_spec_witness :
    "test.p.t1" ∈ incorporate_greedy_nodes greedyExampleManifest
        {"model.p.m"} ["test.p.t2", "test.p.t1"] :=
  (incorporate_greedy_nodes_spec greedyExampleManifest {"model.p.m"}
      ["test.p.t2", "test.p.t1"]).2.2.1 "test.p.t1" ⟨.Test, ["model.p.m"]⟩
    (by decide) (by decide) (by decide)

/-! ## Claim C10 -/

/-- **C10.** Ids that are not keys of `manifest.nodes` are silently skipped
by both selector operations: they never appear in the candidate-check set,
and the returned selections contain, beyond the input selection, only ids of
manifest nodes (test nodes, in `expand_selection`'s case). -/
theorem selector_skips_non_node_ids (edges : List (String × String))
    (m : SelManifest) (selected : Finset String) (greedy_nodes : List String) :
    (∀ uid g, lookupNode m uid = none →
      uid ∉ (expand_selection edges m selected g).2)
    ∧ (∀ uid g, uid ∈ (expand_selection edges m selected g).1 →
        uid ∈ selected ∨ ∃ n, lookupNode m uid = some n ∧ n.resource_type = .Test)
    ∧ ∀ uid, uid ∈ incorporate_greedy_nodes m selected greedy_nodes →
        uid ∈ selected ∨ ∃ n, lookupNode m uid = some n := by
  refine ⟨?_, ?_, ?_⟩
  · intro uid g hnone hmem
    have hmem2 : uid ∈ (expand_selection edges m selected true).2 := hmem
    obtain ⟨-, n, hn, -⟩ := (mem_selected_tests edges m selected uid).mp hmem2
    rw [hnone] at hn
    cases hn
  · intro uid g hmem
    cases g with
    | false => exact Or.inl hmem
    | true =>
      rcases Finset.mem_union.mp hmem with h | h
      · exact Or.inl h
      · obtain ⟨-, n, hn, ht⟩ := (mem_selected_tests edges m selected uid).mp h
        exact Or.inr ⟨n, hn, ht⟩
  · intro uid hmem
    rcases mem_incorporate m selected greedy_nodes uid hmem with h | ⟨-, n, hn, -⟩
    · exact Or.inl h
    · exact Or.inr ⟨n, hn⟩

/-- Witness for `selector_skips_non_node_ids`: a successor id absent from
`manifest.nodes` never becomes a candidate check. -/
theorem selector_skips_non_node_ids_witness :
    "exposure.p.dash" ∉ (expand_selection [("model.p.m", "exposure.p.dash")]
        greedyExampleManifest {"model.p.m"} true).2 :=
  (selector_skips_non_node_ids [("model.p.m", "exposure.p.dash")]
      greedyExampleManifest {"model.p.m"} []).1 "exposure.p.dash" true (by decide)

end Dbt
